import Mathlib

/-!
Verification development for a PDF ingestion pipeline
(`python-processor/main.py`, `document_processor.py`, `azure_search.py`)
and its companion embedding microservice (`backend/embeddings/app.py`).

The Python code is shallowly embedded: external effects (PDF parsing, the
sentence-transformer model, the remote Azure AI Search service, Flask JSON
parsing) are passed in as explicit function arguments returning
`Except String _`, matching the places where the Python code calls out and
catches exceptions.  Each embedded operation additionally returns the list
of remote or model calls it issued, so that "no call was made" facts are
provable.
-/

/-! ## Decimal rendering of naturals

Models Python `str(n)` / f-string interpolation of a nonnegative integer:
decimal digits, most significant first, no leading zeros, `"0"` for zero. -/

def natRepr (n : Nat) : String :=
  if n = 0 then "0" else ⟨(Nat.digits 10 n).reverse.map Nat.digitChar⟩

/-- Models Python `source_file.replace('.', '_')`: every `'.'` character is
replaced by `'_'` (single-character replace is a character-wise map). -/
def replaceDots (s : String) : String :=
  ⟨s.data.map (fun c => if c = '.' then '_' else c)⟩

/-- Models the document key `f"{source_file.replace('.', '_')}_{idx}"`
built in `AzureSearchClient.upload_documents`. -/
def mkDocId (source_file : String) (idx : Nat) : String :=
  replaceDots source_file ++ "_" ++ natRepr idx

/-! ## Indexed documents and `upload_documents` -/

/-- One document of the batch built in `upload_documents`.  The embedding
vector is carried opaquely (the Python code passes the list of floats
through without inspecting it), so its type is a parameter. -/
structure IndexedDocument (E : Type) where
  id : String
  content : String
  source_file : String
  chunk_index : Nat
  upload_date : String
  content_vector : E
deriving DecidableEq

/-- The result dictionary of `upload_documents`:
`{'success': True, 'count': …, 'index_name': …, 'message': …}` or
`{'success': False, 'error': …}`. -/
inductive UploadResult where
  | ok (count : Nat) (index_name : String) (message : String)
  | err (error : String)
deriving DecidableEq

/-- The document batch built by the loop
`for idx, (chunk, embedding) in enumerate(zip(chunks, embeddings))`. -/
def buildDocuments {E : Type} (source_file upload_time : String)
    (chunks : List String) (embeddings : List E) : List (IndexedDocument E) :=
  (chunks.zip embeddings).enum.map fun p =>
    { id := mkDocId source_file p.1
      content := p.2.1
      source_file := source_file
      chunk_index := p.1
      upload_date := upload_time
      content_vector := p.2.2 }

/-- `AzureSearchClient.upload_documents`.  `remote` models
`self.search_client.upload_documents` (it may raise, i.e. return `.error`);
`isoNow` models `datetime.utcnow().isoformat()`.  The second component is
the list of batches actually sent to the remote service. -/
def upload_documents {E : Type}
    (remote : List (IndexedDocument E) → Except String Unit) (index_name : String)
    (chunks : List String) (embeddings : List E) (source_file isoNow : String) :
    UploadResult × List (List (IndexedDocument E)) :=
  if chunks.length ≠ embeddings.length then
    (.err "Number of chunks must match number of embeddings", [])
  else
    let upload_time := isoNow ++ "Z"
    let documents := buildDocuments source_file upload_time chunks embeddings
    match remote documents with
    | .ok _ =>
        (.ok documents.length index_name
          ("Uploaded " ++ natRepr documents.length ++ " documents successfully"),
         [documents])
    | .error e => (.err e, [documents])

/-! ## The pipeline orchestrator `process_pdf` -/

/-- The four pipeline stages of `main.process_pdf`. -/
inductive Stage where
  | extract
  | chunk
  | embed
  | upload
deriving DecidableEq

/-- Status text accumulated before extraction runs. -/
def statusExtracting (file_name : String) : String :=
  "📄 Processing: " ++ file_name ++ "\n\n" ++ "⏳ Extracting text from PDF...\n"

/-- Status text accumulated after a successful, non-empty extraction. -/
def statusAfterExtract (file_name : String) (textLen : Nat) : String :=
  statusExtracting file_name ++ "✅ Extracted " ++ natRepr textLen ++
    " characters\n\n" ++ "⏳ Chunking text...\n"

/-- Status text accumulated after chunking. -/
def statusAfterChunk (file_name : String) (textLen nChunks : Nat) : String :=
  statusAfterExtract file_name textLen ++ "✅ Created " ++ natRepr nChunks ++
    " chunks\n\n" ++ "⏳ Generating embeddings...\n"

/-- Status text accumulated after embedding generation. -/
def statusAfterEmbed (file_name : String) (textLen nChunks nEmb : Nat) : String :=
  statusAfterChunk file_name textLen nChunks ++ "✅ Generated " ++ natRepr nEmb ++
    " embeddings\n\n" ++ "⏳ Uploading to Azure AI Search...\n"

/-- `main.process_pdf`.  The stage calls are passed in:
`extract` models `processor.extract_text_from_pdf(file_path)`,
`chunk` models `processor.chunk_text`, `embed` models
`processor.generate_embeddings`, `upload` models
`azure_client.upload_documents` (which returns a result value and does not
raise).  `.error` outcomes model raised exceptions, which the
`try/except` wrapper turns into the `"❌ Error processing file: …"` string.
The second component records which stages were invoked. -/
def process_pdf {E : Type}
    (extract : Except String String)
    (chunk : String → Except String (List String))
    (embed : List String → Except String (List E))
    (upload : List String → List E → String → UploadResult)
    (pdf_file : Option String) : String × List Stage :=
  match pdf_file with
  | none => ("❌ No file uploaded", [])
  | some file_name =>
    match extract with
    | .error e => ("❌ Error processing file: " ++ e, [.extract])
    | .ok text =>
      if text = "" then
        (statusExtracting file_name ++ "❌ Error: Could not extract text from PDF",
         [.extract])
      else
        match chunk text with
        | .error e => ("❌ Error processing file: " ++ e, [.extract, .chunk])
        | .ok chunks =>
          match embed chunks with
          | .error e =>
              ("❌ Error processing file: " ++ e, [.extract, .chunk, .embed])
          | .ok embeddings =>
            match upload chunks embeddings file_name with
            | .ok count index_name _msg =>
                (statusAfterEmbed file_name text.length chunks.length embeddings.length ++
                   "✅ Successfully uploaded " ++ natRepr count ++ " documents to Azure\n" ++
                   "📊 Index: " ++ index_name ++ "\n",
                 [.extract, .chunk, .embed, .upload])
            | .err e =>
                (statusAfterEmbed file_name text.length chunks.length embeddings.length ++
                   "❌ Upload failed: " ++ e ++ "\n",
                 [.extract, .chunk, .embed, .upload])

/-! ## Index lifecycle operations of `AzureSearchClient` -/

/-- Result of `delete_index`: `{'success': True, 'message': …}` or
`{'success': False, 'error': …}`. -/
inductive DeleteResult where
  | ok (message : String)
  | err (error : String)
deriving DecidableEq

/-- `AzureSearchClient.delete_index`.  `remoteDelete` models the call
`self.index_client.delete_index(self.index_name)`; any raised exception is
caught and returned as an error result value. -/
def delete_index (index_name : String) (remoteDelete : Except String Unit) :
    DeleteResult :=
  match remoteDelete with
  | .ok _ => .ok ("Index \x27" ++ index_name ++ "\x27 deleted successfully")
  | .error _e => .err _e

/-- Result of `create_index`: `{'success': True, 'index_name': …,
'message': …}` or `{'success': False, 'error': …}`. -/
inductive CreateResult where
  | ok (index_name : String) (message : String)
  | err (error : String)
deriving DecidableEq

/-- One field of the index schema defined in `create_index`. -/
structure IndexField where
  name : String
  fieldType : String
  key : Bool := false
  filterable : Bool := false
  searchable : Bool := false
  vector_search_dimensions : Option Nat := none
deriving DecidableEq

/-- The HNSW algorithm configuration defined in `create_index`. -/
structure HnswConfig where
  name : String
  m : Nat
  efConstruction : Nat
  efSearch : Nat
  metric : String
deriving DecidableEq

/-- The concrete HNSW parameters from `create_index`. -/
def hnswConfig : HnswConfig :=
  { name := "hnsw-config", m := 4, efConstruction := 400, efSearch := 500,
    metric := "cosine" }

/-- The six index fields defined in `create_index` for a given embedding
dimension. -/
def indexFields (embedding_dim : Nat) : List IndexField :=
  [ { name := "id", fieldType := "String", key := true },
    { name := "content", fieldType := "String", searchable := true },
    { name := "source_file", fieldType := "String", searchable := true,
      filterable := true },
    { name := "chunk_index", fieldType := "Int32", filterable := true },
    { name := "upload_date", fieldType := "DateTimeOffset", filterable := true },
    { name := "content_vector", fieldType := "Collection(Single)",
      searchable := true, vector_search_dimensions := some embedding_dim } ]

/-- `AzureSearchClient.create_index`.  `remoteCreate` models
`self.index_client.create_or_update_index(index)` and returns the name of
the created index; any raised exception is caught and returned as an error
result value. -/
def create_index (index_name : String)
    (remoteCreate : String → List IndexField → HnswConfig → Except String String)
    (embedding_dim : Nat) : CreateResult :=
  match remoteCreate index_name (indexFields embedding_dim) hnswConfig with
  | .ok resultName =>
      .ok resultName ("Index \x27" ++ resultName ++ "\x27 created/updated successfully")
  | .error _e => .err _e

/-! ## `search_similar` -/

/-- One raw row returned by the remote search service, projected on
`content`, `source_file`, `chunk_index`; the similarity score may be
absent (`result.get('@search.score', 0)`). -/
structure SearchRow where
  content : String
  source_file : String
  chunk_index : Nat
  score? : Option Float

/-- One entry of the list returned by `search_similar`. -/
structure SearchResult where
  content : String
  source : String
  chunk : Nat
  score : Float

/-- `AzureSearchClient.search_similar`.  `remoteSearch` models
`self.search_client.search(...)`.  Unlike the other operations, a failure
is re-raised wrapped with context (modelled by the `Except` return type),
not converted into a result value. -/
def search_similar (remoteSearch : List Float → Nat → Except String (List SearchRow))
    (query_embedding : List Float) (top_k : Nat) :
    Except String (List SearchResult) :=
  match remoteSearch query_embedding top_k with
  | .ok rows =>
      .ok (rows.map fun r =>
        { content := r.content, source := r.source_file, chunk := r.chunk_index,
          score := r.score?.getD 0 })
  | .error e => .error ("Error searching documents: " ++ e)

/-! ## The embedding microservice (`backend/embeddings/app.py`) -/

/-- A JSON value, as delivered by `request.get_json()`. -/
inductive Json where
  | str (s : String)
  | num (n : Int)
  | bool (b : Bool)
  | null
  | arr (xs : List Json)

/-- Python truthiness of a JSON value. -/
def Json.truthy : Json → Bool
  | .str s => s ≠ ""
  | .num n => n ≠ 0
  | .bool b => b
  | .null => false
  | .arr xs => !xs.isEmpty

/-- Field lookup in a JSON object (`data['text']` after a `'text' in data`
check). -/
def lookupField (fields : List (String × Json)) (key : String) : Option Json :=
  (fields.find? (fun p => p.1 = key)).map (fun p => p.2)

/-- A response body produced by `jsonify` in the microservice. -/
inductive RespBody where
  | failure (msg : String)
  | embeddingOf (vec : List Float) (dimension : Nat) (model : String)
  | embeddingsOf (vecs : List (List Float)) (count : Nat) (dimension : Nat)
      (model : String)

/-- An HTTP response: status code and JSON body. -/
structure HttpResponse where
  status : Nat
  body : RespBody

/-- The `POST /embed` handler.  `data` models `request.get_json()` (`none`
for a missing/unparsable body; the spec's payloads are JSON objects).
`encodeOne` models `model.encode(text, normalize_embeddings=True)`, which
may raise.  The second component lists the texts actually sent to the
model. -/
def embedHandler (encodeOne : String → Except String (List Float))
    (data : Option (List (String × Json))) : HttpResponse × List String :=
  match data with
  | none => (⟨400, .failure "Missing text field"⟩, [])
  | some fields =>
    if fields.isEmpty then (⟨400, .failure "Missing text field"⟩, [])
    else
      match lookupField fields "text" with
      | none => (⟨400, .failure "Missing text field"⟩, [])
      | some (.str s) =>
        if s = "" then (⟨400, .failure "Text must be a non-empty string"⟩, [])
        else
          match encodeOne s with
          | .ok v => (⟨200, .embeddingOf v v.length "all-MiniLM-L6-v2"⟩, [s])
          | .error e => (⟨500, .failure e⟩, [s])
      | some _ => (⟨400, .failure "Text must be a non-empty string"⟩, [])

/-- The `POST /embed/batch` handler.  `encodeBatch` models
`model.encode(texts, normalize_embeddings=True)` on the raw JSON list.
The second component lists the batches actually sent to the model. -/
def embedBatchHandler (encodeBatch : List Json → Except String (List (List Float)))
    (data : Option (List (String × Json))) : HttpResponse × List (List Json) :=
  match data with
  | none => (⟨400, .failure "Missing texts field"⟩, [])
  | some fields =>
    if fields.isEmpty then (⟨400, .failure "Missing texts field"⟩, [])
    else
      match lookupField fields "texts" with
      | none => (⟨400, .failure "Missing texts field"⟩, [])
      | some (.arr xs) =>
        if xs.isEmpty then
          (⟨400, .failure "texts must be a non-empty array"⟩, [])
        else
          match encodeBatch xs with
          | .ok vecs =>
              (⟨200, .embeddingsOf vecs vecs.length
                 (match vecs with | [] => 0 | v :: _ => v.length)
                 "all-MiniLM-L6-v2"⟩, [xs])
          | .error e => (⟨500, .failure e⟩, [xs])
      | some _ => (⟨400, .failure "texts must be a non-empty array"⟩, [])

/-! ## The chunker -/

/-- Modelled from the spec: `DocumentProcessor.chunk_text` delegates the
splitting to `langchain`'s `RecursiveCharacterTextSplitter`, an external
library whose code is not part of this repository.  Per §4.2 the contract
is: ordered chunks, each of length at most `size`, consecutive chunks
sharing `overlap` characters of context, splitting down to character
boundaries in the worst case, and no content dropped.  This models the
worst-case (character-boundary) splitter: emit the next `size` characters,
then restart `size - overlap` characters further on.  `fuel` bounds the
recursion by the text length. -/
def chunkAux (size step : Nat) : Nat → List Char → List (List Char)
  | 0, t => [t]
  | fuel + 1, t =>
    if t.length ≤ size then [t]
    else t.take size :: chunkAux size step fuel (t.drop step)

/-- Modelled from the spec: the chunking operation of §4.2 with maximum
chunk size `size` and overlap `overlap`, on the character list of the
text. -/
def chunk_text (size overlap : Nat) (t : List Char) : List (List Char) :=
  chunkAux size (size - overlap) t.length t

/-- Concatenation of chunks with the first `overlap` characters of each
stripped. -/
def stripConcat (overlap : Nat) : List (List Char) → List Char
  | [] => []
  | c :: cs => c.drop overlap ++ stripConcat overlap cs

/-- Concatenating chunks while stripping the overlapping prefix of each
chunk after the first (§8). -/
def reassemble (overlap : Nat) : List (List Char) → List Char
  | [] => []
  | c :: cs => c ++ stripConcat overlap cs

/-! ## Decoding decimal strings (used to prove key injectivity) -/

/-- Decoding a decimal digit character (`int(c)` semantics on `'0'`–`'9'`). -/
def charToDigit (c : Char) : Nat := c.toNat - '0'.toNat

/-- Decoding a most-significant-first decimal character string. -/
def decodeDecimal (l : List Char) : Nat :=
  l.foldl (fun acc c => 10 * acc + charToDigit c) 0

/-! ## Helper lemmas: the chunker -/

theorem chunkAux_length_le (size step : Nat) (hstep : 1 ≤ step) :
    ∀ fuel t, t.length ≤ fuel → ∀ c ∈ chunkAux size step fuel t, c.length ≤ size := by
  intro fuel
  induction fuel with
  | zero =>
    intro t ht c hc
    have h0 : t = [] := List.eq_nil_of_length_eq_zero (Nat.le_zero.mp ht)
    subst h0
    simp only [chunkAux, List.mem_singleton] at hc
    subst hc
    simp
  | succ fuel ih =>
    intro t ht c hc
    by_cases hle : t.length ≤ size
    · simp only [chunkAux, if_pos hle, List.mem_singleton] at hc
      subst hc; exact hle
    · simp only [chunkAux, if_neg hle, List.mem_cons] at hc
      rcases hc with hc | hc
      · subst hc
        simp [List.length_take]
      · have hlen : (t.drop step).length ≤ fuel := by
          rw [List.length_drop]; omega
        exact ih (t.drop step) hlen c hc

theorem chunkAux_spec (size step ov : Nat) (hstep : 1 ≤ step)
    (hsum : step + ov = size) :
    ∀ fuel t, t.length ≤ fuel →
      reassemble ov (chunkAux size step fuel t) = t ∧
      (chunkAux size step fuel t).head? = some (t.take size) := by
  intro fuel
  induction fuel with
  | zero =>
    intro t ht
    have h0 : t = [] := List.eq_nil_of_length_eq_zero (Nat.le_zero.mp ht)
    subst h0
    constructor
    · simp [chunkAux, reassemble, stripConcat]
    · simp [chunkAux]
  | succ fuel ih =>
    intro t ht
    by_cases hle : t.length ≤ size
    · constructor
      · simp [chunkAux, if_pos hle, reassemble, stripConcat]
      · simp [chunkAux, if_pos hle, List.take_of_length_le hle]
    · have hlen : (t.drop step).length ≤ fuel := by
        rw [List.length_drop]; omega
      obtain ⟨ih1, ih2⟩ := ih (t.drop step) hlen
      have hcons : ∃ tl, chunkAux size step fuel (t.drop step) =
          (t.drop step).take size :: tl := by
        cases hr : chunkAux size step fuel (t.drop step) with
        | nil => rw [hr] at ih2; simp at ih2
        | cons a l =>
          rw [hr] at ih2
          simp only [List.head?_cons, Option.some.injEq] at ih2
          exact ⟨l, by rw [ih2]⟩
      obtain ⟨tl, htl⟩ := hcons
      constructor
      · rw [htl] at ih1
        simp only [reassemble] at ih1
        rw [chunkAux, if_neg hle, htl]
        simp only [reassemble, stripConcat]
        have hJ : ((t.drop step).take size).drop ov ++ stripConcat ov tl =
            t.drop size := by
          have hc := congrArg (List.drop ov) ih1
          rw [List.drop_append_of_le_length] at hc
          · rw [hc, List.drop_drop, hsum]
          · simp only [List.length_take, List.length_drop]
            omega
        rw [hJ, List.take_append_drop]
      · rw [chunkAux, if_neg hle]
        simp

/-! ## Helper lemmas: decimal rendering is injective -/

theorem charToDigit_digitChar {d : Nat} (hd : d < 10) :
    charToDigit (Nat.digitChar d) = d := by
  interval_cases d <;> rfl

theorem foldr_ofDigits (L : List Nat) (hL : ∀ d ∈ L, d < 10) :
    L.foldr (fun d acc => 10 * acc + charToDigit (Nat.digitChar d)) 0 =
      Nat.ofDigits 10 L := by
  induction L with
  | nil => simp [Nat.ofDigits_nil]
  | cons d L ihL =>
    have hd : d < 10 := hL d (List.mem_cons_self d L)
    have hrest : ∀ x ∈ L, x < 10 := fun x hx => hL x (List.mem_cons_of_mem d hx)
    simp only [List.foldr_cons, ihL hrest, Nat.ofDigits_cons,
      charToDigit_digitChar hd]
    omega

theorem decodeDecimal_natRepr (n : Nat) : decodeDecimal (natRepr n).data = n := by
  by_cases hn : n = 0
  · subst hn; rfl
  · have hdata : (natRepr n).data = (Nat.digits 10 n).reverse.map Nat.digitChar := by
      simp [natRepr, hn]
    rw [hdata]
    unfold decodeDecimal
    rw [List.foldl_map, List.foldl_reverse]
    have := foldr_ofDigits (Nat.digits 10 n)
      (fun d hd => Nat.digits_lt_base (by norm_num) hd)
    calc (Nat.digits 10 n).foldr
          (fun x acc => 10 * acc + charToDigit (Nat.digitChar x)) 0
        = Nat.ofDigits 10 (Nat.digits 10 n) := this
      _ = n := by exact_mod_cast Nat.ofDigits_digits 10 n

theorem natRepr_injective : Function.Injective natRepr := by
  intro a b h
  have := congrArg (fun s => decodeDecimal s.data) h
  simpa [decodeDecimal_natRepr] using this

/-- Two strings with equal character data are equal. -/
theorem string_eq_of_data_eq {s t : String} (h : s.data = t.data) : s = t := by
  cases s; cases t; exact congrArg String.mk h

theorem string_data_append (s t : String) : (s ++ t).data = s.data ++ t.data := by
  cases s; cases t; rfl

/-- Within a fixed source file, the document key determines the chunk
index. -/
theorem mkDocId_index_inj {f : String} {i j : Nat}
    (h : mkDocId f i = mkDocId f j) : i = j := by
  unfold mkDocId at h
  have hdata := congrArg String.data h
  rw [string_data_append, string_data_append] at hdata
  have hrepr : (natRepr i).data = (natRepr j).data :=
    List.append_cancel_left hdata
  exact natRepr_injective (string_eq_of_data_eq hrepr)

/-! ## Claim theorems -/

/-- C10: when `process_pdf` is called with a `None` file argument it
returns the status string `"❌ No file uploaded"` and performs no
extraction, chunking, embedding, or upload. -/
theorem C10_none_file_short_circuit {E : Type}
    (extract : Except String String)
    (chunk : String → Except String (List String))
    (embed : List String → Except String (List E))
    (upload : List String → List E → String → UploadResult) :
    process_pdf extract chunk embed upload none = ("❌ No file uploaded", []) := rfl

/-- C9: if extraction yields empty text, the run ends in a terminal error
status (the accumulated status annotated with an extraction error), and
chunking, embedding, and upload are never attempted (the stage trace is
just `[extract]`). -/
theorem C9_empty_extraction_is_terminal {E : Type}
    (extract : Except String String)
    (chunk : String → Except String (List String))
    (embed : List String → Except String (List E))
    (upload : List String → List E → String → UploadResult)
    (file_name : String) (hx : extract = .ok "") :
    process_pdf extract chunk embed upload (some file_name) =
      (statusExtracting file_name ++ "❌ Error: Could not extract text from PDF",
       [.extract]) := by
  subst hx
  simp [process_pdf]

theorem C9_witness :
    process_pdf (E := Unit) (.ok "") (fun _ => .ok []) (fun _ => .ok [])
        (fun _ _ _ => .err "x") (some "f.pdf") =
      (statusExtracting "f.pdf" ++ "❌ Error: Could not extract text from PDF",
       [.extract]) :=
  C9_empty_extraction_is_terminal _ _ _ _ "f.pdf" rfl

/-- C1 counterexample: when the extraction stage raises, `process_pdf`
returns only `"❌ Error processing file: …"`; the accumulated status text
(which contains the `'📄'` header) is discarded, so the claim that every
stage failure returns the accumulated status text annotated with the
failure is false at this input. -/
theorem C1_counterexample :
    (process_pdf (E := Unit) (.error "boom") (fun _ => .ok []) (fun _ => .ok [])
        (fun _ _ _ => .err "x") (some "f.pdf")).1 =
      "❌ Error processing file: boom" ∧
    '📄' ∈ (statusExtracting "f.pdf").data ∧
    '📄' ∉ (process_pdf (E := Unit) (.error "boom") (fun _ => .ok [])
        (fun _ => .ok []) (fun _ _ _ => .err "x") (some "f.pdf")).1.data :=
  ⟨rfl, by decide, by decide⟩

/-- C1 (amended): a failure at any stage halts the pipeline immediately
and is never propagated (the embedding of `process_pdf` is a total
function into `String × List Stage`).  The failures that are reported as
result values — empty extraction and upload failure — return the
accumulated status text annotated with the failure; a raised
extraction, chunking, or embedding error returns only the annotation
`"❌ Error processing file: …"`, with the accumulated status discarded. -/
theorem C1_failure_halts_and_is_caught {E : Type}
    (chunk : String → Except String (List String))
    (embed : List String → Except String (List E))
    (upload : List String → List E → String → UploadResult)
    (file_name text : String) (htext : text ≠ "") :
    (∀ e, process_pdf (.error e) chunk embed upload (some file_name) =
        ("❌ Error processing file: " ++ e, [.extract])) ∧
    (process_pdf (.ok "") chunk embed upload (some file_name) =
        (statusExtracting file_name ++ "❌ Error: Could not extract text from PDF",
         [.extract])) ∧
    (∀ e, chunk text = .error e →
        process_pdf (.ok text) chunk embed upload (some file_name) =
          ("❌ Error processing file: " ++ e, [.extract, .chunk])) ∧
    (∀ chs e, chunk text = .ok chs → embed chs = .error e →
        process_pdf (.ok text) chunk embed upload (some file_name) =
          ("❌ Error processing file: " ++ e, [.extract, .chunk, .embed])) ∧
    (∀ chs embs e, chunk text = .ok chs → embed chs = .ok embs →
        upload chs embs file_name = .err e →
        process_pdf (.ok text) chunk embed upload (some file_name) =
          (statusAfterEmbed file_name text.length chs.length embs.length ++
             "❌ Upload failed: " ++ e ++ "\n",
           [.extract, .chunk, .embed, .upload])) := by
  refine ⟨fun e => rfl, ?_, ?_, ?_, ?_⟩
  · simp [process_pdf]
  · intro e hch
    simp [process_pdf, htext, hch]
  · intro chs e hch hem
    simp [process_pdf, htext, hch, hem]
  · intro chs embs e hch hem hup
    simp [process_pdf, htext, hch, hem, hup]

theorem C1_witness :
    process_pdf (E := Unit) (.ok "T") (fun _ => .error "boom") (fun _ => .ok [])
        (fun _ _ _ => .err "x") (some "f.pdf") =
      ("❌ Error processing file: boom", [.extract, .chunk]) :=
  ((C1_failure_halts_and_is_caught (E := Unit) (fun _ => .error "boom")
      (fun _ => .ok []) (fun _ _ _ => .err "x") "f.pdf" "T"
      (by decide)).2.2.1) "boom" rfl

/-- C2 (chunker modelled from the spec, §4.2): with `0 < overlap < size`,
every chunk has length at most `size`, and concatenating the chunks while
stripping the overlapping prefix of each chunk after the first
reconstructs the text exactly. -/
theorem C2_chunk_size_and_reconstruction (size overlap : Nat) (t : List Char)
    (_h1 : 0 < overlap) (h2 : overlap < size) :
    (∀ c ∈ chunk_text size overlap t, c.length ≤ size) ∧
    reassemble overlap (chunk_text size overlap t) = t := by
  have hstep : 1 ≤ size - overlap := by omega
  have hsum : (size - overlap) + overlap = size := by omega
  exact ⟨chunkAux_length_le size (size - overlap) hstep t.length t le_rfl,
    (chunkAux_spec size (size - overlap) overlap hstep hsum t.length t le_rfl).1⟩

theorem C2_witness :
    (∀ c ∈ chunk_text 3 1 "abcde".data, c.length ≤ 3) ∧
    reassemble 1 (chunk_text 3 1 "abcde".data) = "abcde".data :=
  C2_chunk_size_and_reconstruction 3 1 "abcde".data (by decide) (by decide)

/-- C4: with equal-length chunk and embedding lists, `upload_documents`
sends exactly one batch consisting of one Indexed Document per chunk;
the document at position `i` has `chunk_index = i` (strictly increasing
from 0), id `mkDocId source_file i` (the filename with dots replaced by
underscores, an underscore, and the chunk index), unique within the call;
and every document carries the same `"Z"`-suffixed upload timestamp. -/
theorem C4_upload_builds_one_doc_per_chunk {E : Type}
    (remote : List (IndexedDocument E) → Except String Unit) (index_name : String)
    (chunks : List String) (embeddings : List E) (source_file isoNow : String)
    (h : chunks.length = embeddings.length) :
    (upload_documents remote index_name chunks embeddings source_file isoNow).2 =
      [buildDocuments source_file (isoNow ++ "Z") chunks embeddings] ∧
    (buildDocuments source_file (isoNow ++ "Z") chunks embeddings).length =
      chunks.length ∧
    (∀ i (hi : i <
        (buildDocuments source_file (isoNow ++ "Z") chunks embeddings).length),
      ((buildDocuments source_file (isoNow ++ "Z") chunks embeddings).get
          ⟨i, hi⟩).chunk_index = i ∧
      ((buildDocuments source_file (isoNow ++ "Z") chunks embeddings).get
          ⟨i, hi⟩).id = mkDocId source_file i ∧
      ((buildDocuments source_file (isoNow ++ "Z") chunks embeddings).get
          ⟨i, hi⟩).upload_date = isoNow ++ "Z") ∧
    (∀ i j (hi : i <
        (buildDocuments source_file (isoNow ++ "Z") chunks embeddings).length)
      (hj : j <
        (buildDocuments source_file (isoNow ++ "Z") chunks embeddings).length),
      i ≠ j →
      ((buildDocuments source_file (isoNow ++ "Z") chunks embeddings).get
          ⟨i, hi⟩).id ≠
        ((buildDocuments source_file (isoNow ++ "Z") chunks embeddings).get
          ⟨j, hj⟩).id) ∧
    (isoNow ++ "Z").data.getLast? = some 'Z' := by
  have hne : ¬ chunks.length ≠ embeddings.length := by omega
  have hid : ∀ i (hi : i <
      (buildDocuments source_file (isoNow ++ "Z") chunks embeddings).length),
      ((buildDocuments source_file (isoNow ++ "Z") chunks embeddings).get
        ⟨i, hi⟩).id = mkDocId source_file i := by
    intro i hi
    simp [buildDocuments, List.get_eq_getElem, List.getElem_map,
      List.getElem_enum]
  refine ⟨?_, ?_, ?_, ?_, ?_⟩
  · simp only [upload_documents, if_neg hne]
    cases remote (buildDocuments source_file (isoNow ++ "Z") chunks embeddings) <;>
      rfl
  · simp [buildDocuments, h]
  · intro i hi
    refine ⟨?_, hid i hi, ?_⟩ <;>
      simp [buildDocuments, List.get_eq_getElem, List.getElem_map,
        List.getElem_enum]
  · intro i j hi hj hij heq
    rw [hid i hi, hid j hj] at heq
    exact hij (mkDocId_index_inj heq)
  · rw [string_data_append]
    exact List.getLast?_concat _

theorem C4_witness :
    (upload_documents (E := Nat) (fun _ => .ok ()) "cpa-documents" ["a", "b"]
        [1, 2] "f.pdf" "2024-01-01T00:00:00").2 =
      [buildDocuments "f.pdf" ("2024-01-01T00:00:00" ++ "Z") ["a", "b"] [1, 2]] :=
  (C4_upload_builds_one_doc_per_chunk (E := Nat) (fun _ => .ok ()) "cpa-documents"
    ["a", "b"] [1, 2] "f.pdf" "2024-01-01T00:00:00" rfl).1

/-- C5: `upload_documents` called with differing chunk and embedding list
lengths returns the error result value and issues no call to the remote
search service. -/
theorem C5_length_mismatch_no_remote_call {E : Type}
    (remote : List (IndexedDocument E) → Except String Unit) (index_name : String)
    (chunks : List String) (embeddings : List E) (source_file isoNow : String)
    (h : chunks.length ≠ embeddings.length) :
    upload_documents remote index_name chunks embeddings source_file isoNow =
      (.err "Number of chunks must match number of embeddings", []) := by
  simp [upload_documents, h]

theorem C5_witness :
    upload_documents (E := Nat) (fun _ => .ok ()) "cpa-documents" ["a"] []
        "f.pdf" "2024-01-01T00:00:00" =
      (.err "Number of chunks must match number of embeddings", []) :=
  C5_length_mismatch_no_remote_call _ _ _ _ _ _ (by decide)

/-- C6 counterexample: the key function is not injective across source
files — `"a.b"` and `"a_b"` are distinct filenames whose chunk-0 keys
coincide. -/
theorem C6_counterexample :
    mkDocId "a.b" 0 = mkDocId "a_b" 0 ∧ ("a.b" : String) ≠ "a_b" :=
  ⟨rfl, by decide⟩

/-- C6 (amended): for a fixed source file the key function is injective in
the chunk index, so keys are unique within one document's upload; across
distinct source files keys can collide when the filenames differ only in
dots versus underscores. -/
theorem C6_key_injective_per_file (f : String) :
    Function.Injective (fun idx => mkDocId f idx) := by
  intro a b h
  exact mkDocId_index_inj h

theorem C6_witness : (3 : Nat) = 3 :=
  C6_key_injective_per_file "a.pdf"
    (show mkDocId "a.pdf" 3 = mkDocId "a.pdf" 3 from rfl)

/-- C7: `create_index`, `delete_index` and `upload_documents` convert
every remote failure into a `{success: false, error}` result value and
never raise, while `search_similar` re-raises remote failures wrapped
with added context instead of returning a result value. -/
theorem C7_error_reporting_styles {E : Type} (index_name : String)
    (remoteDelete : Except String Unit)
    (remoteCreate : String → List IndexField → HnswConfig → Except String String)
    (embedding_dim : Nat)
    (remote : List (IndexedDocument E) → Except String Unit)
    (chunks : List String) (embeddings : List E) (source_file isoNow : String)
    (remoteSearch : List Float → Nat → Except String (List SearchRow))
    (q : List Float) (top_k : Nat) :
    (∀ e, remoteDelete = .error e → delete_index index_name remoteDelete = .err e) ∧
    (∀ u, remoteDelete = .ok u →
        delete_index index_name remoteDelete =
          .ok ("Index \x27" ++ index_name ++ "\x27 deleted successfully")) ∧
    (∀ e, remoteCreate index_name (indexFields embedding_dim) hnswConfig = .error e →
        create_index index_name remoteCreate embedding_dim = .err e) ∧
    (∀ n, remoteCreate index_name (indexFields embedding_dim) hnswConfig = .ok n →
        create_index index_name remoteCreate embedding_dim =
          .ok n ("Index \x27" ++ n ++ "\x27 created/updated successfully")) ∧
    (chunks.length ≠ embeddings.length →
        (upload_documents remote index_name chunks embeddings source_file isoNow).1 =
          .err "Number of chunks must match number of embeddings") ∧
    (∀ e, chunks.length = embeddings.length →
        remote (buildDocuments source_file (isoNow ++ "Z") chunks embeddings) =
          .error e →
        (upload_documents remote index_name chunks embeddings source_file isoNow).1 =
          .err e) ∧
    (∀ e, remoteSearch q top_k = .error e →
        search_similar remoteSearch q top_k =
          .error ("Error searching documents: " ++ e)) := by
  refine ⟨?_, ?_, ?_, ?_, ?_, ?_, ?_⟩
  · intro e he
    simp [delete_index, he]
  · intro u hu
    simp [delete_index, hu]
  · intro e he
    simp [create_index, he]
  · intro n hn
    simp [create_index, hn]
  · intro hne
    simp [upload_documents, hne]
  · intro e heq hrem
    have hne : ¬ chunks.length ≠ embeddings.length := by omega
    simp only [upload_documents, if_neg hne, hrem]
  · intro e he
    simp [search_similar, he]

theorem C7_witness :
    delete_index "cpa-documents" (.error "gone") = .err "gone" ∧
    search_similar (fun _ _ => .error "x") [] 5 =
      .error ("Error searching documents: " ++ "x") := by
  have h := C7_error_reporting_styles (E := Unit) "cpa-documents" (.error "gone")
    (fun _ _ _ => .error "ce") 384 (fun _ => .error "ue") [] [] "f.pdf" "T"
    (fun _ _ => .error "x") [] 5
  exact ⟨h.1 "gone" rfl, h.2.2.2.2.2.2 "x" rfl⟩

/-- C8: `POST /embed` answers 400 with `{"error": "Missing text field"}`
when the body lacks a `text` field, and 400 when `text` is empty or not a
string; `POST /embed/batch` answers 400 with
`{"error": "texts must be a non-empty array"}` when `texts` is an empty
list or not a list; in all these cases no embedding computation is
performed (the model-call log is empty). -/
theorem C8_microservice_input_validation
    (encodeOne : String → Except String (List Float))
    (encodeBatch : List Json → Except String (List (List Float))) :
    (embedHandler encodeOne none = (⟨400, .failure "Missing text field"⟩, [])) ∧
    (∀ fields, lookupField fields "text" = none →
        embedHandler encodeOne (some fields) =
          (⟨400, .failure "Missing text field"⟩, [])) ∧
    (∀ fields v, lookupField fields "text" = some v →
        ((∀ s, v ≠ .str s) ∨ v = .str "") →
        embedHandler encodeOne (some fields) =
          (⟨400, .failure "Text must be a non-empty string"⟩, [])) ∧
    (∀ fields, lookupField fields "texts" = some (.arr []) →
        embedBatchHandler encodeBatch (some fields) =
          (⟨400, .failure "texts must be a non-empty array"⟩, [])) ∧
    (∀ fields v, lookupField fields "texts" = some v → (∀ xs, v ≠ .arr xs) →
        embedBatchHandler encodeBatch (some fields) =
          (⟨400, .failure "texts must be a non-empty array"⟩, [])) := by
  refine ⟨rfl, ?_, ?_, ?_, ?_⟩
  · intro fields hlk
    simp [embedHandler, hlk]
  · intro fields v hlk hv
    have hfe : fields.isEmpty = false := by
      cases fields with
      | nil => simp [lookupField] at hlk
      | cons a l => rfl
    rcases hv with hv | hv
    · cases v with
      | str s => exact absurd rfl (hv s)
      | num n => simp [embedHandler, hfe, hlk]
      | bool b => simp [embedHandler, hfe, hlk]
      | null => simp [embedHandler, hfe, hlk]
      | arr xs => simp [embedHandler, hfe, hlk]
    · subst hv
      simp [embedHandler, hfe, hlk]
  · intro fields hlk
    have hfe : fields.isEmpty = false := by
      cases fields with
      | nil => simp [lookupField] at hlk
      | cons a l => rfl
    simp [embedBatchHandler, hfe, hlk]
  · intro fields v hlk hv
    have hfe : fields.isEmpty = false := by
      cases fields with
      | nil => simp [lookupField] at hlk
      | cons a l => rfl
    cases v with
    | arr xs => exact absurd rfl (hv xs)
    | str s => simp [embedBatchHandler, hfe, hlk]
    | num n => simp [embedBatchHandler, hfe, hlk]
    | bool b => simp [embedBatchHandler, hfe, hlk]
    | null => simp [embedBatchHandler, hfe, hlk]

theorem C8_witness :
    embedHandler (fun _ => .ok []) none =
      (⟨400, .failure "Missing text field"⟩, []) ∧
    embedBatchHandler (fun _ => .ok []) (some [("texts", .arr [])]) =
      (⟨400, .failure "texts must be a non-empty array"⟩, []) := by
  have h := C8_microservice_input_validation (fun _ => .ok []) (fun _ => .ok [])
  exact ⟨h.1, h.2.2.2.1 [("texts", .arr [])] rfl⟩

